import Mathlib

/-!
Shallow embedding of `src/types/observableobject.ts` (the administration
layer of the reactive-object runtime) and proofs of the specification
claims about it.

The file in `src/` is the authority for every definition below unless the
doc comment says `Modelled from the spec:`; those definitions stand in for
collaborator modules of the repository that are not under `src/`
(`observablevalue.ts`, `intercept-utils.ts`, `listen-utils.ts`,
`core/spy.ts`, `utils/*`), and follow the interface the spec gives for
them (spec sections 4.6 and 6).

Host-language values are modelled by the inductive `JsVal`; getters,
setters and enhancer functions carried inside JS values are referenced by
opaque `Nat` identifiers so that `JsVal` keeps decidable equality, while
enhancers held by live cells are genuine Lean functions. Side effects
that the claims observe (trace events, listener notification, commits,
direct computed-cell writes) are recorded in an explicit event list, and
failures (the `invariant` utility throwing, host-language type errors)
are an `Except` error result.
-/

namespace MobxAdm

/-- Change kind of a pending or committed change (`"update" | "add"` in the
source interfaces `IObjectWillChange` / `IObjectChange`). -/
inductive ChangeType where
  | update
  | add
deriving DecidableEq, Repr

/-- Evaluation scope of a computed cell: either the owning target object of
the administration record, or some other host object (opaque id). -/
inductive ScopeV where
  | ownerTarget
  | other (id : Nat)
deriving DecidableEq, Repr

/-- Host-language values. `computedVal` is a pre-built `ComputedValue`
object (as tested by `isComputedValue`), `modifierVal` a modifier
descriptor (as tested by `isModifierDescriptor`); both carry their payload
fields inline, with functions referenced by opaque ids. -/
inductive JsVal where
  | num (n : Int)
  | str (s : String)
  | jsBool (b : Bool)
  | undef
  | jsNull
  | objRef (id : Nat)
  | computedVal (getter : Option Nat) (setter : Option Nat) (scope : Option ScopeV)
      (cname : String) (compareStructural : Bool)
  | modifierVal (enhId : Nat) (init : JsVal)
deriving DecidableEq, Repr

/-- The pending change handed to interceptors (`IObjectWillChange`:
`{object, type, name, newValue}`; the `object` back-reference is the
record's own target and is omitted from the model). -/
structure WillChange where
  ctype : ChangeType
  name : String
  newValue : JsVal
deriving DecidableEq, Repr

/-- The committed change handed to listeners and the spy (`IObjectChange`:
`{name, object, type, oldValue?, newValue}`). -/
structure ChangeRec where
  ctype : ChangeType
  name : String
  oldValue : Option JsVal
  newValue : JsVal
deriving DecidableEq, Repr

/-- Observable side effects recorded by the model, in the order the source
performs them: spy trace start/end (`spyReportStart`/`spyReportEnd`),
listener notification (`notifyListeners`, one event per registered
listener), a value-cell commit (`observable.setNewValue`), and a direct
call to a cell's own `set()` (the computed accessor's setter). -/
inductive Event where
  | spyStart (c : Option ChangeRec)
  | spyEnd
  | notify (listenerId : Nat) (c : Option ChangeRec)
  | commit (name : String) (v : JsVal)
  | cellSet (name : String) (v : JsVal)
deriving DecidableEq, Repr

/-- Errors: `invariantViolation` models the `invariant(cond, msg)` utility
throwing when `cond` is false; `typeError` models a host-language
`TypeError` (e.g. calling a method on `undefined`). -/
inductive Err where
  | invariantViolation (msg : String)
  | typeError (msg : String)
deriving DecidableEq, Repr

/-- Modelled from the spec: the value-cell collaborator
(`ObservableValue` of `observablevalue.ts`, not under `src/`). It holds a
current value, an enhancer (coercion) applied on every set, and a label;
its constructor applies the enhancer to the initial value. -/
structure ObservableValue where
  value : JsVal
  enhancer : JsVal → JsVal
  name : String

/-- Modelled from the spec: the computed-cell collaborator
(`ComputedValue` of `computedvalue.ts`, not under `src/`): a getter,
optional setter, scope, label and a structural-compare mode; its caching
machinery is external to this layer and not modelled. -/
structure ComputedValue where
  getter : Option Nat
  setter : Option Nat
  scope : Option ScopeV
  name : String
  compareStructural : Bool

/-- A reactive cell bound in the administration record
(`ObservableValue<any>|ComputedValue<any>` in the source `values` map). -/
inductive Cell where
  | ov (v : ObservableValue)
  | cv (c : ComputedValue)

/-- The two cell kinds a property name can be bound to. -/
inductive CellKind where
  | valueCell
  | computedCell
deriving DecidableEq, Repr

/-- Kind of a bound cell. -/
def Cell.kind : Cell → CellKind
  | Cell.ov _ => CellKind.valueCell
  | Cell.cv _ => CellKind.computedCell

/-- Modelled from the spec:
`ObservableValue.prepareNewValue(candidate)` of the value-cell
collaborator applies the cell's coercion and returns either the value to
commit or the `UNCHANGED` sentinel when the coerced value equals the
current one (spec section 6); the sentinel is modelled as `none`. -/
def ObservableValue.prepareNewValue (c : ObservableValue) (candidate : JsVal) : Option JsVal :=
  let v := c.enhancer candidate
  if v = c.value then none else some v

/-- Kind, enumerability and configurability of a property slot on the
target object, as installed by `Object.defineProperty`; the shared
getter/setter closures of the source are modelled by the `kind` tag,
which `writeThroughAccessor` dispatches on. -/
inductive AccessorKind where
  | data
  | observableAccessor
  | computedAccessor
deriving DecidableEq, Repr

/-- A property descriptor as installed on the target object. -/
structure PropConfig where
  configurable : Bool
  enumerable : Bool
  kind : AccessorKind
deriving DecidableEq, Repr

/-- The administration record (`ObservableObjectAdministration`):
per-object registry binding property names to cells and owning the
interceptor and listener pipelines. `targetProps` models the instrumented
target object's own property slots, and `dataProps` the values of its
plain (non-accessor) data properties. -/
structure Adm where
  name : String
  values : List (String × Cell)
  interceptors : List (WillChange → Option WillChange)
  listeners : List Nat
  targetProps : List (String × PropConfig)
  dataProps : List (String × JsVal)

/-- Association-list lookup (models `adm.values[name]` and property-table
lookups; a missing key is JS `undefined`, modelled as `none`). -/
def lookupAssoc {α : Type} : List (String × α) → String → Option α
  | [], _ => none
  | (k, v) :: rest, key => if k = key then some v else lookupAssoc rest key

/-- Association-list update-or-insert (models `adm.values[name] = cell`
and `Object.defineProperty`). -/
def updateAssoc {α : Type} : List (String × α) → String → α → List (String × α)
  | [], key, v => [(key, v)]
  | (k, w) :: rest, key, v =>
      if k = key then (key, v) :: rest else (k, w) :: updateAssoc rest key v

/-- Modelled from the spec: `hasInterceptors` of `intercept-utils.ts` is
an O(1) existence check on the interceptor chain. -/
def hasInterceptors (adm : Adm) : Bool :=
  !adm.interceptors.isEmpty

/-- Modelled from the spec: `hasListeners` of `listen-utils.ts` is an
O(1) existence check on the listener collection. -/
def hasListeners (adm : Adm) : Bool :=
  !adm.listeners.isEmpty

/-- Modelled from the spec: `interceptChange` of `intercept-utils.ts`
runs the pending change through the guard chain in registration order;
each guard returns the (possibly rewritten) change to continue or a
cancel signal (`none`) that halts the chain immediately — first
cancellation wins (spec section 4.6). -/
def interceptChange : List (WillChange → Option WillChange) → WillChange → Option WillChange
  | [], c => some c
  | g :: gs, c =>
    match g c with
    | none => none
    | some c2 => interceptChange gs c2

/-- The interception block shared verbatim by `setPropertyValue` (change
type `update`, lines 209-218) and `defineObservableProperty` (change type
`add`, lines 121-131): if interceptors exist, run the chain; `none` means
the chain vetoed, otherwise the (possibly rewritten) `newValue` is
adopted. -/
def interceptPhase (adm : Adm) (ct : ChangeType) (name : String) (newValue : JsVal) : Option JsVal :=
  if hasInterceptors adm then
    match interceptChange adm.interceptors { ctype := ct, name := name, newValue := newValue } with
    | none => none
    | some c => some c.newValue
  else some newValue

/-- The mutation router `setPropertyValue(instance, name, newValue)`
(source lines 204-240). The spy-enabled flag (`isSpyEnabled()`) is passed
as the parameter `spy`. The source reads `adm.values[name]` before the
interception block but only dereferences it afterwards; the lookup is
pure, so the model performs it at the dereference point. A missing cell
(`undefined`) makes the `prepareNewValue` call a host type error, as does
a computed cell bound under the name (computed cells have no
`prepareNewValue`). -/
def setPropertyValue (spy : Bool) (adm : Adm) (name : String) (newValue : JsVal) :
    Except Err (Adm × List Event) :=
  match interceptPhase adm ChangeType.update name newValue with
  | none => Except.ok (adm, [])
  | some nv1 =>
    match lookupAssoc adm.values name with
    | none =>
        Except.error (Err.typeError
          ("Cannot read property prepareNewValue of undefined: no cell bound for " ++ name))
    | some (Cell.cv _) =>
        Except.error (Err.typeError
          ("observable.prepareNewValue is not a function: computed cell bound for " ++ name))
    | some (Cell.ov observable) =>
      match observable.prepareNewValue nv1 with
      | none => Except.ok (adm, [])
      | some nv2 =>
        let notify := hasListeners adm
        let change : Option ChangeRec :=
          if notify || spy then
            some { ctype := ChangeType.update, name := name,
                   oldValue := some observable.value, newValue := nv2 }
          else none
        Except.ok
          ({ adm with
              values := updateAssoc adm.values name (Cell.ov { observable with value := nv2 }) },
           (if spy then [Event.spyStart change] else []) ++
             (Event.commit name nv2 ::
               ((if notify then adm.listeners.map (fun lid => Event.notify lid change) else []) ++
                 (if spy then [Event.spyEnd] else []))))

/-- Modelled from the spec: `assertPropertyConfigurable(target, propName)`
of `utils.ts` throws (via `invariant`) when the target already has a
non-configurable property slot under the name; a missing slot passes. -/
def assertPropertyConfigurable (props : List (String × PropConfig)) (propName : String) :
    Except Err Unit :=
  match lookupAssoc props propName with
  | some pc =>
      if pc.configurable then Except.ok ()
      else Except.error (Err.invariantViolation
        ("Cannot make property " ++ propName ++ " observable, it is not configurable"))
  | none => Except.ok ()

/-- The accessor descriptor produced by `generateObservablePropConfig`
(source lines 172-186): enumerable, configurable, getter reading the
bound cell, setter delegating to `setPropertyValue`. The source memoizes
one such descriptor per property name; the memoization is unobservable,
and the shared closures are modelled by the `observableAccessor` kind
tag. -/
def generateObservablePropConfig (_propName : String) : PropConfig :=
  { configurable := true, enumerable := true, kind := AccessorKind.observableAccessor }

/-- The accessor descriptor produced by `generateComputedPropConfig`
(source lines 188-202): configurable, NOT enumerable, getter reading the
bound cell, setter calling the cell's own `set(v)` directly. -/
def generateComputedPropConfig (_propName : String) : PropConfig :=
  { configurable := true, enumerable := false, kind := AccessorKind.computedAccessor }

/-- `defineObservableProperty(adm, propName, newValue, enhancer,
asInstanceProperty)` (source lines 110-139): assert configurability, run
the Add interception phase (a veto returns silently), construct the value
cell (whose constructor applies the enhancer, so the stored value may
differ from the intercepted one), bind it, install the observable
accessor, and run `notifyPropertyAddition` (source lines 242-256) with
the cell's post-construction value. -/
def defineObservableProperty (spy : Bool) (adm : Adm) (propName : String) (newValue0 : JsVal)
    (enhancer : JsVal → JsVal) (asInstanceProperty : Bool) : Except Err (Adm × List Event) :=
  match (if asInstanceProperty then assertPropertyConfigurable adm.targetProps propName
         else Except.ok ()) with
  | Except.error e => Except.error e
  | Except.ok _ =>
    match interceptPhase adm ChangeType.add propName newValue0 with
    | none => Except.ok (adm, [])
    | some nv =>
      let observable : ObservableValue :=
        { value := enhancer nv, enhancer := enhancer, name := adm.name ++ "." ++ propName }
      let nv2 := observable.value
      let adm1 := { adm with values := updateAssoc adm.values propName (Cell.ov observable) }
      let adm2 :=
        if asInstanceProperty then
          { adm1 with
              targetProps := updateAssoc adm1.targetProps propName
                (generateObservablePropConfig propName) }
        else adm1
      let notify := hasListeners adm2
      let change : Option ChangeRec :=
        if notify || spy then
          some { ctype := ChangeType.add, name := propName, oldValue := none, newValue := nv2 }
        else none
      Except.ok
        (adm2,
         (if spy then [Event.spyStart change] else []) ++
           ((if notify then adm2.listeners.map (fun lid => Event.notify lid change) else []) ++
             (if spy then [Event.spyEnd] else [])))

/-- `defineComputedProperty(adm, propName, getter, setter,
compareStructural, asInstanceProperty)` (source lines 141-156): assert
configurability, bind a freshly constructed computed cell scoped to the
owner target, and install the computed accessor. No interception phase
runs. -/
def defineComputedProperty (adm : Adm) (propName : String) (getter setter : Option Nat)
    (compareStructural asInstanceProperty : Bool) : Except Err (Adm × List Event) :=
  match (if asInstanceProperty then assertPropertyConfigurable adm.targetProps propName
         else Except.ok ()) with
  | Except.error e => Except.error e
  | Except.ok _ =>
    let cell : ComputedValue :=
      { getter := getter, setter := setter, scope := some ScopeV.ownerTarget,
        name := adm.name ++ "." ++ propName, compareStructural := compareStructural }
    let adm1 := { adm with values := updateAssoc adm.values propName (Cell.cv cell) }
    let adm2 :=
      if asInstanceProperty then
        { adm1 with
            targetProps := updateAssoc adm1.targetProps propName
              (generateComputedPropConfig propName) }
      else adm1
    Except.ok (adm2, [])

/-- `defineComputedPropertyFromComputedValue(adm, propName, computedValue,
asInstanceProperty)` (source lines 158-167): relabel the pre-built cell,
default its scope to the owner target when unset, bind it and install the
computed accessor. No configurability assertion and no interception phase
run on this path. -/
def defineComputedPropertyFromComputedValue (adm : Adm) (propName : String)
    (getter setter : Option Nat) (scope : Option ScopeV) (compareStructural : Bool)
    (asInstanceProperty : Bool) : Except Err (Adm × List Event) :=
  let cell : ComputedValue :=
    { getter := getter, setter := setter,
      scope := match scope with | none => some ScopeV.ownerTarget | some s => some s,
      name := adm.name ++ "." ++ propName, compareStructural := compareStructural }
  let adm1 := { adm with values := updateAssoc adm.values propName (Cell.cv cell) }
  let adm2 :=
    if asInstanceProperty then
      { adm1 with
          targetProps := updateAssoc adm1.targetProps propName
            (generateComputedPropConfig propName) }
    else adm1
  Except.ok (adm2, [])

/-- A host-language property write `target[name] = v` on the instrumented
object: dispatches on the installed property slot. An observable accessor
routes through the mutation router (`generateObservablePropConfig`'s
setter); a computed accessor calls the bound cell's own `set(v)` directly
(`generateComputedPropConfig`'s setter) and fails with a host type error
when no cell is bound; a plain data slot (or no slot) is an ordinary data
write outside the administration layer. -/
def writeThroughAccessor (spy : Bool) (adm : Adm) (name : String) (v : JsVal) :
    Except Err (Adm × List Event) :=
  match lookupAssoc adm.targetProps name with
  | some pc =>
    match pc.kind with
    | AccessorKind.observableAccessor => setPropertyValue spy adm name v
    | AccessorKind.computedAccessor =>
      match lookupAssoc adm.values name with
      | some _ => Except.ok (adm, [Event.cellSet name v])
      | none =>
          Except.error (Err.typeError
            ("Cannot read property set of undefined: no cell bound for " ++ name))
    | AccessorKind.data =>
        Except.ok ({ adm with dataProps := updateAssoc adm.dataProps name v }, [])
  | none => Except.ok ({ adm with dataProps := updateAssoc adm.dataProps name v }, [])

/-- A property descriptor handed to the installer: an optional stored
`value` (`"value" in descriptor`) and optional getter/setter ids. -/
structure PropertyDescriptor where
  value : Option JsVal
  get : Option Nat
  set : Option Nat

/-- `defineObservablePropertyFromDescriptor(adm, propName, descriptor,
defaultEnhancer)` (source lines 79-108). When the name is already bound:
a value-carrying descriptor is treated as a plain write through the
installed accessor (`adm.target[propName] = descriptor.value`), and a
descriptor without a stored value hits
`invariant("value" in descriptor, ...)`, which throws. When unbound, the
incoming value is classified: modifier descriptor, pre-built computed
value, plain value, or getter/setter pair. `enhEnv` resolves the opaque
enhancer ids carried by modifier descriptors. -/
def defineObservablePropertyFromDescriptor (spy : Bool) (enhEnv : Nat → JsVal → JsVal)
    (defaultEnhancer : JsVal → JsVal) (adm : Adm) (propName : String)
    (descriptor : PropertyDescriptor) : Except Err (Adm × List Event) :=
  match lookupAssoc adm.values propName with
  | some _ =>
    match descriptor.value with
    | some v => writeThroughAccessor spy adm propName v
    | none =>
        Except.error (Err.invariantViolation
          ("The property " ++ propName ++ " in " ++ adm.name ++
            " is already observable, cannot redefine it as computed property"))
  | none =>
    match descriptor.value with
    | some (JsVal.modifierVal enhId init) =>
        defineObservableProperty spy adm propName init (enhEnv enhId) true
    | some (JsVal.computedVal g s sc _ cs) =>
        defineComputedPropertyFromComputedValue adm propName g s sc cs true
    | some v => defineObservableProperty spy adm propName v defaultEnhancer true
    | none => defineComputedProperty adm propName descriptor.get descriptor.set false true

/-- The cell kind a fresh (not-yet-bound) install of the descriptor would
bind, read off the classification in
`defineObservablePropertyFromDescriptor` (source lines 89-107). -/
def descriptorFreshKind (d : PropertyDescriptor) : CellKind :=
  match d.value with
  | some (JsVal.modifierVal _ _) => CellKind.valueCell
  | some (JsVal.computedVal _ _ _ _ _) => CellKind.computedCell
  | some _ => CellKind.valueCell
  | none => CellKind.computedCell

/-- A reactivation target object as seen by `asObservableObject`:
whether it is a plain structural record (`isPlainObject`), whether it is
extensible, its constructor's `name` (`""` models a falsy constructor
name), and the administration record it already carries, if any. -/
structure Target where
  plainObject : Bool
  extensible : Bool
  ctorName : String
  admin : Option Adm

/-- `asObservableObject(target, name?)` (source lines 64-77). A target
already carrying a record returns it unchanged. Otherwise a
non-extensible target fails; for a non-plain (class-like) target the name
is reassigned to `"<ctorName>@N"` (falling back to `"ObservableObject"`
for a falsy constructor name) regardless of the caller's argument; a
still-falsy name (absent or empty) becomes `"ObservableObject@N"`. The
global `getNextId()` counter is passed in as `nextId` (each path reads it
at most once). The fresh record starts with empty pipelines and the
target attached (`addHiddenFinalProp`, modelled by returning the
record). -/
def asObservableObject (target : Target) (name? : Option String) (nextId : Nat) :
    Except Err Adm :=
  match target.admin with
  | some adm => Except.ok adm
  | none =>
    if !target.extensible then
      Except.error (Err.invariantViolation
        ("Cannot make the designated object observable; it is not extensible"))
    else
      let name1 : Option String :=
        if !target.plainObject then
          some ((if target.ctorName = "" then "ObservableObject" else target.ctorName) ++
            "@" ++ toString nextId)
        else name?
      let name2 : String :=
        match name1 with
        | none => "ObservableObject@" ++ toString nextId
        | some s => if s = "" then "ObservableObject@" ++ toString nextId else s
      Except.ok
        { name := name2, values := [], interceptors := [], listeners := [],
          targetProps := [], dataProps := [] }

/-- What the hidden `$mobx` slot of a host object holds: an
`ObservableObjectAdministration` instance (as recognised by the
`instanceof` predicate), some other value, or nothing. -/
inductive SlotVal where
  | admInstance (name : String)
  | otherVal (v : JsVal)
deriving DecidableEq, Repr

/-- A host object as seen by `isObservableObject`: whether its lazy field
initializers have run, and the `$mobx` slot contents before and after
they run (`runLazyInitializers` may install the slot). -/
structure HostObject where
  lazyInitialized : Bool
  slotBeforeInit : Option SlotVal
  slotAfterInit : Option SlotVal
deriving DecidableEq, Repr

/-- Any host value handed to the public predicate: a genuine object, or a
primitive (null, undefined, number, string, boolean, ...) for which
`isObject` is false. -/
inductive Thing where
  | primitive (v : JsVal)
  | object (o : HostObject)
deriving DecidableEq, Repr

/-- Modelled from the spec: `runLazyInitializers` of `utils/decorators.ts`
forces any pending lazy field initializers of the object. -/
def runLazyInitializers (o : HostObject) : HostObject :=
  { o with lazyInitialized := true }

/-- The current `$mobx` slot of a host object. -/
def HostObject.mobxSlot (o : HostObject) : Option SlotVal :=
  if o.lazyInitialized then o.slotAfterInit else o.slotBeforeInit

/-- The `instanceof`-based predicate produced by
`createInstanceofPredicate("ObservableObjectAdministration", ...)`
(source line 258), applied to a slot value. -/
def isObservableObjectAdministration : Option SlotVal → Bool
  | some (SlotVal.admInstance _) => true
  | _ => false

/-- `isObservableObject(thing)` (source lines 260-267): primitives are
rejected by the `isObject` guard; for objects, lazy initializers are
forced first and then the `$mobx` slot is tested. The possibly-mutated
thing is returned alongside the boolean. -/
def isObservableObject : Thing → Bool × Thing
  | Thing.primitive v => (false, Thing.primitive v)
  | Thing.object o =>
      let o2 := runLazyInitializers o
      (isObservableObjectAdministration o2.mobxSlot, Thing.object o2)

/-- Looking a key up right after updating it yields the stored value. -/
theorem lookupAssoc_updateAssoc_self {α : Type} (l : List (String × α)) (k : String) (v : α) :
    lookupAssoc (updateAssoc l k v) k = some v := by
  induction l with
  | nil => simp [updateAssoc, lookupAssoc]
  | cons hd tl ih =>
    obtain ⟨k0, w⟩ := hd
    by_cases h : k0 = k
    · simp [updateAssoc, h, lookupAssoc]
    · simp [updateAssoc, h, lookupAssoc, ih]

/-- If some guard of the chain cancels (after the guards before it let
the change through, possibly rewritten), the whole chain cancels: first
cancellation wins and the guards after it never run. -/
theorem interceptChange_append_cancel (pre post : List (WillChange → Option WillChange))
    (g : WillChange → Option WillChange) (c c1 : WillChange)
    (hRun : interceptChange pre c = some c1) (hCancel : g c1 = none) :
    interceptChange (pre ++ g :: post) c = none := by
  induction pre generalizing c with
  | nil =>
    simp only [interceptChange, Option.some.injEq] at hRun
    subst hRun
    simp [interceptChange, hCancel]
  | cons g0 rest ih =>
    simp only [List.cons_append, interceptChange]
    cases h0 : g0 c with
    | none => simp [interceptChange, h0] at hRun
    | some c2 =>
      simp only [interceptChange, h0] at hRun
      exact ih c2 hRun

/-- Abbreviation for the Update change record `setPropertyValue` hands to
the spy and the listeners. -/
def updateChange (name : String) (oldV nv : JsVal) : ChangeRec :=
  { ctype := ChangeType.update, name := name, oldValue := some oldV, newValue := nv }

/-- Abbreviation for the pending Update change handed to the interceptor
chain. -/
def updateWillChange (name : String) (nv : JsVal) : WillChange :=
  { ctype := ChangeType.update, name := name, newValue := nv }

/-- C1: a write routed through the mutation router on a record with at
least one registered interceptor, where some interceptor in the chain
cancels the pending Update change, returns with no observable side
effect: the administration record (hence the bound cell's stored value)
is unchanged and no event — no commit, no listener notification, no
trace — is emitted. -/
theorem c1_veto_no_side_effect (spy : Bool) (adm : Adm) (name : String) (v : JsVal)
    (cell : Cell) (pre post : List (WillChange → Option WillChange))
    (g : WillChange → Option WillChange) (c1 : WillChange)
    (_hCell : lookupAssoc adm.values name = some cell)
    (hChain : adm.interceptors = pre ++ g :: post)
    (hRun : interceptChange pre (updateWillChange name v) = some c1)
    (hCancel : g c1 = none) :
    setPropertyValue spy adm name v = Except.ok (adm, []) := by
  have hne : hasInterceptors adm = true := by
    unfold hasInterceptors
    rw [hChain]
    cases pre <;> rfl
  have hRun' : interceptChange pre { ctype := ChangeType.update, name := name, newValue := v } =
      some c1 := hRun
  have hI : interceptPhase adm ChangeType.update name v = none := by
    unfold interceptPhase
    rw [hne, hChain,
      interceptChange_append_cancel pre post g _ c1 hRun' hCancel]
    rfl
  unfold setPropertyValue
  rw [hI]

/-- Sample value cell for the C1 witness. -/
def ovC1 : ObservableValue :=
  { value := JsVal.num 1, enhancer := fun v => v, name := "O.x" }

/-- Sample record for the C1 witness: one value cell `x`, a listener, and
one interceptor that cancels every change. -/
def admC1 : Adm :=
  { name := "O", values := [("x", Cell.ov ovC1)], interceptors := [fun _ => none],
    listeners := [7], targetProps := [], dataProps := [] }

/-- Witness for C1 at a concrete input: the cancelling interceptor makes
the write return with the record unchanged and no events, with spy
enabled and a listener registered. -/
theorem c1_witness :
    lookupAssoc admC1.values "x" = some (Cell.ov ovC1) ∧
    setPropertyValue true admC1 "x" (JsVal.num 2) = Except.ok (admC1, []) :=
  ⟨rfl,
   c1_veto_no_side_effect true admC1 "x" (JsVal.num 2) (Cell.ov ovC1)
     [] [] (fun _ => none) (updateWillChange "x" (JsVal.num 2)) rfl rfl rfl rfl⟩

/-- C2: a committed write through the mutation router with tracing
enabled and at least one listener registered produces exactly the event
sequence trace-start, commit of the new value into the cell, one
notification per registered listener, trace-end — in that order. -/
theorem c2_event_ordering (adm : Adm) (name : String) (v nv1 nv2 : JsVal)
    (ov : ObservableValue)
    (hI : interceptPhase adm ChangeType.update name v = some nv1)
    (hCell : lookupAssoc adm.values name = some (Cell.ov ov))
    (hPrep : ov.prepareNewValue nv1 = some nv2)
    (hL : hasListeners adm = true) :
    setPropertyValue true adm name v =
      Except.ok
        ({ adm with
            values := updateAssoc adm.values name (Cell.ov { ov with value := nv2 }) },
         Event.spyStart (some (updateChange name ov.value nv2)) ::
           Event.commit name nv2 ::
             (adm.listeners.map
                 (fun lid => Event.notify lid (some (updateChange name ov.value nv2))) ++
               [Event.spyEnd])) := by
  simp [setPropertyValue, hI, hCell, hPrep, hL, updateChange]

/-- Sample value cell for the C2 witness. -/
def ovC2 : ObservableValue :=
  { value := JsVal.num 1, enhancer := fun v => v, name := "O.x" }

/-- Sample record for the C2 witness: value cell `x` holding `1`, one
listener, no interceptors. -/
def admC2 : Adm :=
  { name := "O", values := [("x", Cell.ov ovC2)], interceptors := [],
    listeners := [7], targetProps := [], dataProps := [] }

/-- Witness for C2 at a concrete input: writing `2` over `1` with spy on
and listener `7` registered yields exactly trace-start, commit,
notification, trace-end. -/
theorem c2_witness :
    hasListeners admC2 = true ∧
    setPropertyValue true admC2 "x" (JsVal.num 2) =
      Except.ok
        ({ admC2 with
            values := updateAssoc admC2.values "x" (Cell.ov { ovC2 with value := JsVal.num 2 }) },
         Event.spyStart (some (updateChange "x" ovC2.value (JsVal.num 2))) ::
           Event.commit "x" (JsVal.num 2) ::
             ([7].map
                 (fun lid => Event.notify lid (some (updateChange "x" ovC2.value (JsVal.num 2)))) ++
               [Event.spyEnd])) :=
  ⟨rfl,
   c2_event_ordering admC2 "x" (JsVal.num 2) (JsVal.num 2) (JsVal.num 2) ovC2 rfl rfl rfl rfl⟩

/-- C3: a write for which the cell's `prepareNewValue` returns the
UNCHANGED sentinel performs no mutation, emits no notification and no
trace event, and raises no error. -/
theorem c3_unchanged_short_circuit (spy : Bool) (adm : Adm) (name : String) (v nv1 : JsVal)
    (ov : ObservableValue)
    (hI : interceptPhase adm ChangeType.update name v = some nv1)
    (hCell : lookupAssoc adm.values name = some (Cell.ov ov))
    (hPrep : ov.prepareNewValue nv1 = none) :
    setPropertyValue spy adm name v = Except.ok (adm, []) := by
  simp [setPropertyValue, hI, hCell, hPrep]

/-- Sample value cell for the C3 witness. -/
def ovC3 : ObservableValue :=
  { value := JsVal.num 1, enhancer := fun v => v, name := "O.x" }

/-- Sample record for the C3 witness: value cell `x` holding `1`, a
listener registered. -/
def admC3 : Adm :=
  { name := "O", values := [("x", Cell.ov ovC3)], interceptors := [],
    listeners := [7], targetProps := [], dataProps := [] }

/-- Witness for C3 at a concrete input: re-writing the current value `1`
is prepared to the sentinel and the call is a silent success. -/
theorem c3_witness :
    ObservableValue.prepareNewValue ovC3 (JsVal.num 1) = none ∧
    setPropertyValue true admC3 "x" (JsVal.num 1) = Except.ok (admC3, []) :=
  ⟨rfl,
   c3_unchanged_short_circuit true admC3 "x" (JsVal.num 1) (JsVal.num 1) ovC3 rfl rfl rfl⟩

/-- C4: a committed write that notifies carries, in every notification,
`oldValue` equal to the cell's stored value immediately before the commit
(`ov.value`, with `ov` the bound cell of the pre-state by `hCell`) and
`newValue` equal to the value stored immediately after the commit (`nv2`,
the output of interception followed by the cell's `prepareNewValue`
coercion; the final conjunct reads it back from the post-state). -/
theorem c4_notification_content (spy : Bool) (adm : Adm) (name : String) (v nv1 nv2 : JsVal)
    (ov : ObservableValue)
    (hI : interceptPhase adm ChangeType.update name v = some nv1)
    (hCell : lookupAssoc adm.values name = some (Cell.ov ov))
    (hPrep : ov.prepareNewValue nv1 = some nv2)
    (hL : hasListeners adm = true) :
    setPropertyValue spy adm name v =
      Except.ok
        ({ adm with
            values := updateAssoc adm.values name (Cell.ov { ov with value := nv2 }) },
         (if spy then [Event.spyStart (some (updateChange name ov.value nv2))] else []) ++
           (Event.commit name nv2 ::
             (adm.listeners.map
                 (fun lid => Event.notify lid (some (updateChange name ov.value nv2))) ++
               (if spy then [Event.spyEnd] else [])))) ∧
    lookupAssoc (updateAssoc adm.values name (Cell.ov { ov with value := nv2 })) name =
      some (Cell.ov { ov with value := nv2 }) := by
  constructor
  · simp [setPropertyValue, hI, hCell, hPrep, hL, updateChange]
  · exact lookupAssoc_updateAssoc_self adm.values name (Cell.ov { ov with value := nv2 })

/-- Sample value cell for the C4 witness. -/
def ovC4 : ObservableValue :=
  { value := JsVal.num 1, enhancer := fun v => v, name := "O.x" }

/-- Sample record for the C4 witness. -/
def admC4 : Adm :=
  { name := "O", values := [("x", Cell.ov ovC4)], interceptors := [],
    listeners := [7], targetProps := [], dataProps := [] }

/-- Witness for C4 at a concrete input: the notification carries
`oldValue = 1` (pre-commit) and `newValue = 2` (post-commit), and the
post-state stores `2` under `x`. -/
theorem c4_witness :
    (setPropertyValue false admC4 "x" (JsVal.num 2) =
      Except.ok
        ({ admC4 with
            values := updateAssoc admC4.values "x" (Cell.ov { ovC4 with value := JsVal.num 2 }) },
         [] ++
           (Event.commit "x" (JsVal.num 2) ::
             ([7].map
                 (fun lid => Event.notify lid (some (updateChange "x" ovC4.value (JsVal.num 2)))) ++
               [])))) ∧
    lookupAssoc (updateAssoc admC4.values "x" (Cell.ov { ovC4 with value := JsVal.num 2 })) "x" =
      some (Cell.ov { ovC4 with value := JsVal.num 2 }) :=
  c4_notification_content false admC4 "x" (JsVal.num 2) (JsVal.num 2) (JsVal.num 2) ovC4
    rfl rfl rfl rfl


/-- A committed or short-circuited run of the mutation router never
changes the kind of the bound cell: on success the name is still bound,
and to a cell of the same kind. -/
theorem setPropertyValue_preserves_kind (spy : Bool) (adm : Adm) (name : String) (v : JsVal)
    (adm2 : Adm) (evs : List Event) (c : Cell)
    (hBound : lookupAssoc adm.values name = some c)
    (hok : setPropertyValue spy adm name v = Except.ok (adm2, evs)) :
    ∃ c2, lookupAssoc adm2.values name = some c2 ∧ c2.kind = c.kind := by
  unfold setPropertyValue at hok
  cases hI : interceptPhase adm ChangeType.update name v with
  | none =>
    rw [hI] at hok
    simp only [Except.ok.injEq, Prod.mk.injEq] at hok
    obtain ⟨rfl, -⟩ := hok
    exact ⟨c, hBound, rfl⟩
  | some nv1 =>
    rw [hI, hBound] at hok
    cases c with
    | cv cc => simp at hok
    | ov ov =>
      cases hPrep : ov.prepareNewValue nv1 with
      | none =>
        simp only [hPrep, Except.ok.injEq, Prod.mk.injEq] at hok
        obtain ⟨rfl, -⟩ := hok
        exact ⟨Cell.ov ov, hBound, rfl⟩
      | some nv2 =>
        simp only [hPrep, Except.ok.injEq, Prod.mk.injEq] at hok
        obtain ⟨rfl, -⟩ := hok
        exact ⟨Cell.ov { ov with value := nv2 },
          lookupAssoc_updateAssoc_self adm.values name (Cell.ov { ov with value := nv2 }), rfl⟩

/-- C5 (amended): once a property name is bound, a second install through
`defineObservablePropertyFromDescriptor` raises the redefinition
invariant error exactly when the incoming descriptor carries no stored
value (the getter/setter form); any value-carrying descriptor — even one
whose value is a pre-built computed cell or a modifier descriptor, which
a fresh install would have bound as a different kind — is treated as a
plain write, which never changes the kind the name is bound to. -/
theorem c5_redefinition_amended (spy : Bool) (enhEnv : Nat → JsVal → JsVal)
    (defaultEnhancer : JsVal → JsVal) (adm : Adm) (propName : String)
    (descriptor : PropertyDescriptor) (c : Cell)
    (hBound : lookupAssoc adm.values propName = some c) :
    (descriptor.value = none →
      defineObservablePropertyFromDescriptor spy enhEnv defaultEnhancer adm propName descriptor =
        Except.error (Err.invariantViolation
          ("The property " ++ propName ++ " in " ++ adm.name ++
            " is already observable, cannot redefine it as computed property"))) ∧
    (∀ adm2 evs,
      defineObservablePropertyFromDescriptor spy enhEnv defaultEnhancer adm propName descriptor =
        Except.ok (adm2, evs) →
      ∃ c2, lookupAssoc adm2.values propName = some c2 ∧ c2.kind = c.kind) := by
  constructor
  · intro hv
    simp [defineObservablePropertyFromDescriptor, hBound, hv]
  · intro adm2 evs hok
    cases hdv : descriptor.value with
    | none => simp [defineObservablePropertyFromDescriptor, hBound, hdv] at hok
    | some v =>
      simp only [defineObservablePropertyFromDescriptor, hBound, hdv] at hok
      unfold writeThroughAccessor at hok
      cases hp : lookupAssoc adm.targetProps propName with
      | none =>
        rw [hp] at hok
        simp only [Except.ok.injEq, Prod.mk.injEq] at hok
        obtain ⟨rfl, -⟩ := hok
        exact ⟨c, hBound, rfl⟩
      | some pc =>
        rw [hp] at hok
        cases hk : pc.kind with
        | data =>
          simp only [hk, Except.ok.injEq, Prod.mk.injEq] at hok
          obtain ⟨rfl, -⟩ := hok
          exact ⟨c, hBound, rfl⟩
        | computedAccessor =>
          simp only [hk, hBound, Except.ok.injEq, Prod.mk.injEq] at hok
          obtain ⟨rfl, -⟩ := hok
          exact ⟨c, hBound, rfl⟩
        | observableAccessor =>
          simp only [hk] at hok
          exact setPropertyValue_preserves_kind spy adm propName v adm2 evs c hBound hok

/-- Sample value cell for the C5 counterexample and witness. -/
def ovC5 : ObservableValue :=
  { value := JsVal.num 1, enhancer := fun v => v, name := "O.x" }

/-- Sample record for C5: `x` bound as a value cell with its observable
accessor installed; no interceptors, no listeners. -/
def admC5 : Adm :=
  { name := "O", values := [("x", Cell.ov ovC5)], interceptors := [], listeners := [],
    targetProps := [("x", generateObservablePropConfig "x")], dataProps := [] }

/-- A pre-built computed value carried inside a value descriptor. -/
def cvValC5 : JsVal := JsVal.computedVal none none none "c" false

/-- Descriptor whose stored value is a pre-built computed cell: a fresh
install would bind it as a computed cell. -/
def descC5 : PropertyDescriptor := { value := some cvValC5, get := none, set := none }

/-- Counterexample to C5 as stated: `x` is bound as a value cell, the
incoming descriptor would bind a computed cell if fresh, yet the second
install does not fail with a redefinition error — it is treated as a
plain write and succeeds (committing the computed-value object into the
value cell). -/
theorem c5_counterexample :
    (lookupAssoc admC5.values "x").map Cell.kind = some CellKind.valueCell ∧
    descriptorFreshKind descC5 = CellKind.computedCell ∧
    defineObservablePropertyFromDescriptor false (fun _ v => v) (fun v => v) admC5 "x" descC5 =
      Except.ok
        ({ admC5 with values := updateAssoc admC5.values "x" (Cell.ov { ovC5 with value := cvValC5 }) },
         [Event.commit "x" cvValC5]) :=
  ⟨rfl, rfl, rfl⟩

/-- Getter/setter descriptor (no stored value) for the C5 witness. -/
def descC5g : PropertyDescriptor := { value := none, get := some 0, set := none }

/-- Witness for the amended C5 at a concrete input: redeclaring the bound
value cell `x` with a getter/setter descriptor raises the redefinition
invariant error. -/
theorem c5_witness :
    lookupAssoc admC5.values "x" = some (Cell.ov ovC5) ∧
    defineObservablePropertyFromDescriptor false (fun _ v => v) (fun v => v) admC5 "x" descC5g =
      Except.error (Err.invariantViolation
        ("The property " ++ "x" ++ " in " ++ admC5.name ++
          " is already observable, cannot redefine it as computed property")) :=
  ⟨rfl,
   (c5_redefinition_amended false (fun _ v => v) (fun v => v) admC5 "x" descC5g
     (Cell.ov ovC5) rfl).1 rfl⟩

/-- C6 (amended): invoking the mutation router for a name with no bound
cell fails — but only when the interception phase lets the change
through, and with a host-language type error raised at the attempt to
call `prepareNewValue` on the missing cell; the source contains no
explicit UnknownProperty check before the interceptors run. -/
theorem c6_unbound_amended (spy : Bool) (adm : Adm) (name : String) (v nv1 : JsVal)
    (hNone : lookupAssoc adm.values name = none)
    (hI : interceptPhase adm ChangeType.update name v = some nv1) :
    setPropertyValue spy adm name v =
      Except.error (Err.typeError
        ("Cannot read property prepareNewValue of undefined: no cell bound for " ++ name)) := by
  unfold setPropertyValue
  rw [hI, hNone]

/-- Record for the C6 counterexample: no cell bound at all, one
interceptor that cancels every change. -/
def admC6 : Adm :=
  { name := "O", values := [], interceptors := [fun _ => none], listeners := [],
    targetProps := [], dataProps := [] }

/-- Counterexample to C6 as stated: with no cell bound under `y` but a
cancelling interceptor registered, the router call does not fail at all —
it returns successfully with no side effect, so an unbound name does not
imply an UnknownProperty failure. -/
theorem c6_counterexample :
    lookupAssoc admC6.values "y" = none ∧
    setPropertyValue true admC6 "y" (JsVal.num 1) = Except.ok (admC6, []) :=
  ⟨rfl, rfl⟩

/-- Record for the C6 witness: no cell bound, no interceptors. -/
def admC6w : Adm :=
  { name := "O", values := [], interceptors := [], listeners := [],
    targetProps := [], dataProps := [] }

/-- Witness for the amended C6 at a concrete input: with no interceptors,
writing to the unbound name `y` fails with the type error at the missing
cell. -/
theorem c6_witness :
    lookupAssoc admC6w.values "y" = none ∧
    setPropertyValue true admC6w "y" (JsVal.num 1) =
      Except.error (Err.typeError
        ("Cannot read property prepareNewValue of undefined: no cell bound for " ++ "y")) :=
  ⟨rfl, c6_unbound_amended true admC6w "y" (JsVal.num 1) (JsVal.num 1) rfl rfl⟩

/-- C7: a write through the accessor generated for a computed property
calls the bound cell's own `set()` directly — the record is unchanged and
the only recorded effect is the direct cell set; no commit, notification,
trace or interception occurs, and the outcome is identical for every
interceptor chain registered on the record, so no interceptor is ever
invoked for such a write. -/
theorem c7_computed_setter_bypass (spy : Bool) (adm : Adm) (name : String) (v : JsVal)
    (pc : PropConfig) (cc : ComputedValue)
    (hProp : lookupAssoc adm.targetProps name = some pc)
    (hKind : pc.kind = AccessorKind.computedAccessor)
    (hCell : lookupAssoc adm.values name = some (Cell.cv cc)) :
    writeThroughAccessor spy adm name v = Except.ok (adm, [Event.cellSet name v]) ∧
    (∀ gs, writeThroughAccessor spy { adm with interceptors := gs } name v =
        Except.ok ({ adm with interceptors := gs }, [Event.cellSet name v])) := by
  constructor
  · simp [writeThroughAccessor, hProp, hKind, hCell]
  · intro gs
    have hProp2 : lookupAssoc ({ adm with interceptors := gs } : Adm).targetProps name =
        some pc := hProp
    have hCell2 : lookupAssoc ({ adm with interceptors := gs } : Adm).values name =
        some (Cell.cv cc) := hCell
    simp [writeThroughAccessor, hProp2, hKind, hCell2]

/-- Sample computed cell for the C7 witness. -/
def ccC7 : ComputedValue :=
  { getter := some 0, setter := some 1, scope := some ScopeV.ownerTarget,
    name := "O.sum", compareStructural := false }

/-- Sample record for the C7 witness: `sum` bound as a computed cell with
its computed accessor installed, and an interceptor registered on the
record. -/
def admC7 : Adm :=
  { name := "O", values := [("sum", Cell.cv ccC7)], interceptors := [fun _ => none],
    listeners := [7], targetProps := [("sum", generateComputedPropConfig "sum")],
    dataProps := [] }

/-- Witness for C7 at a concrete input: writing `sum = 5` through the
computed accessor only performs the cell's own set, although a cancelling
interceptor and a listener are registered. -/
theorem c7_witness :
    lookupAssoc admC7.targetProps "sum" = some (generateComputedPropConfig "sum") ∧
    writeThroughAccessor true admC7 "sum" (JsVal.num 5) =
      Except.ok (admC7, [Event.cellSet "sum" (JsVal.num 5)]) :=
  ⟨rfl,
   (c7_computed_setter_bypass true admC7 "sum" (JsVal.num 5)
     (generateComputedPropConfig "sum") ccC7 rfl rfl rfl).1⟩

/-- The fresh administration record `asObservableObject` creates: empty
cell map and pipelines, labelled `n`. -/
def mkFreshAdm (n : String) : Adm :=
  { name := n, values := [], interceptors := [], listeners := [],
    targetProps := [], dataProps := [] }

/-- JS falsiness of the optional `name` argument: absent or the empty
string. -/
def falsyName : Option String → Bool
  | none => true
  | some s => s = ""

/-- A string built around a literal `"@"` separator is never empty. -/
theorem append_at_ne_empty (a b : String) : a ++ "@" ++ b ≠ "" := by
  intro h
  have h2 := congrArg String.length h
  rw [String.length_append, String.length_append] at h2
  have h3 : ("@" : String).length = 1 := rfl
  have h4 : ("" : String).length = 0 := rfl
  rw [h3, h4] at h2
  omega

/-- Target for the C8 counterexample: a fresh, extensible, class-like
instance with constructor name `Point`. -/
def targetC8 : Target :=
  { plainObject := false, extensible := true, ctorName := "Point", admin := none }

/-- Counterexample to C8 as stated: the caller supplies the name
`"custom"`, yet for a class-like instance the record is created with a
derived name — the supplied name is not used as given. -/
theorem c8_counterexample :
    asObservableObject targetC8 (some "custom") 7 = Except.ok (mkFreshAdm "Point@7") ∧
    ("Point@7" : String) ≠ "custom" :=
  ⟨rfl, by decide⟩

/-- C8 (amended): on a fresh, extensible target, a supplied non-empty
name is used as given only for plain structural records; a falsy name on
a plain record yields the generated `"ObservableObject@N"`; and for
class-like instances the name is always derived as `"<TypeName>@N"`
(with `"ObservableObject"` substituted for a falsy constructor name),
regardless of any supplied name. -/
theorem c8_naming_amended (target : Target) (nextId : Nat)
    (hFresh : target.admin = none) (hExt : target.extensible = true) :
    (∀ s : String, target.plainObject = true → s ≠ "" →
      asObservableObject target (some s) nextId = Except.ok (mkFreshAdm s)) ∧
    (∀ nameArg : Option String, target.plainObject = true → falsyName nameArg = true →
      asObservableObject target nameArg nextId =
        Except.ok (mkFreshAdm ("ObservableObject@" ++ toString nextId))) ∧
    (∀ nameArg : Option String, target.plainObject = false →
      asObservableObject target nameArg nextId =
        Except.ok (mkFreshAdm
          ((if target.ctorName = "" then "ObservableObject" else target.ctorName) ++
            "@" ++ toString nextId))) := by
  refine ⟨?_, ?_, ?_⟩
  · intro s hPlain hs
    simp [asObservableObject, hFresh, hExt, hPlain, hs, mkFreshAdm]
  · intro nameArg hPlain hFalsy
    cases nameArg with
    | none => simp [asObservableObject, hFresh, hExt, hPlain, mkFreshAdm]
    | some s =>
      have hs : s = "" := by simpa [falsyName] using hFalsy
      simp [asObservableObject, hFresh, hExt, hPlain, hs, mkFreshAdm]
  · intro nameArg hPlain
    simp [asObservableObject, hFresh, hExt, hPlain, mkFreshAdm,
      append_at_ne_empty (if target.ctorName = "" then "ObservableObject" else target.ctorName)
        (toString nextId)]

/-- Target for the C8 witness: a fresh, extensible plain structural
record. -/
def targetC8w : Target :=
  { plainObject := true, extensible := true, ctorName := "Object", admin := none }

/-- Witness for the amended C8 at concrete inputs: a plain record uses
the supplied name as given, and with the name absent it gets the
generated label. -/
theorem c8_witness :
    asObservableObject targetC8w (some "store") 3 = Except.ok (mkFreshAdm "store") ∧
    asObservableObject targetC8w none 3 = Except.ok (mkFreshAdm ("ObservableObject@" ++ toString 3)) :=
  ⟨(c8_naming_amended targetC8w 3 rfl rfl).1 "store" rfl (by decide),
   (c8_naming_amended targetC8w 3 rfl rfl).2.1 none rfl rfl⟩

/-- C9: the accessor installed for an observable value cell as an
instance property is enumerable and configurable — after a successful
install the target slot carries exactly the generated observable
configuration, whose `enumerable` and `configurable` are both true — in
contrast with the generated computed accessor configuration, which is not
enumerable. -/
theorem c9_observable_prop_enumerable (spy : Bool) (adm : Adm) (p : String) (v nv : JsVal)
    (enh : JsVal → JsVal)
    (hConf : assertPropertyConfigurable adm.targetProps p = Except.ok ())
    (hI : interceptPhase adm ChangeType.add p v = some nv) :
    (generateObservablePropConfig p).enumerable = true ∧
    (generateObservablePropConfig p).configurable = true ∧
    (generateComputedPropConfig p).enumerable = false ∧
    (defineObservableProperty spy adm p v enh true).map (fun r => lookupAssoc r.1.targetProps p) =
      Except.ok (some (generateObservablePropConfig p)) := by
  refine ⟨rfl, rfl, rfl, ?_⟩
  simp only [defineObservableProperty, hConf, hI, if_true]
  simp [Except.map, lookupAssoc_updateAssoc_self]

/-- Fresh record for the C9 witness. -/
def admC9 : Adm :=
  { name := "O", values := [], interceptors := [], listeners := [],
    targetProps := [], dataProps := [] }

/-- Witness for C9 at a concrete input: installing `x = 1` on a fresh
record leaves the target slot bound to the enumerable, configurable
observable accessor configuration. -/
theorem c9_witness :
    assertPropertyConfigurable admC9.targetProps "x" = Except.ok () ∧
    (defineObservableProperty false admC9 "x" (JsVal.num 1) (fun v => v) true).map
        (fun r => lookupAssoc r.1.targetProps "x") =
      Except.ok (some (generateObservablePropConfig "x")) :=
  ⟨rfl,
   (c9_observable_prop_enumerable false admC9 "x" (JsVal.num 1) (JsVal.num 1)
     (fun v => v) rfl rfl).2.2.2⟩

/-- C10: the public predicate returns false for every non-object input
without error, and on an object input it first forces the lazy field
initializers and then returns true exactly when the (post-initialization)
hidden `$mobx` slot holds an `ObservableObjectAdministration` instance. -/
theorem c10_isObservableObject :
    (∀ v : JsVal, isObservableObject (Thing.primitive v) = (false, Thing.primitive v)) ∧
    (∀ o : HostObject,
      isObservableObject (Thing.object o) =
        (isObservableObjectAdministration o.slotAfterInit,
         Thing.object { o with lazyInitialized := true })) := by
  constructor
  · intro v
    rfl
  · intro o
    rfl


end MobxAdm
